import Mathlib

/-!
Verification of the Sleep Routine Designer action layer.

The embedding models the three tables of the schema (`SleepRoutines`,
`SleepRoutineSteps`, `SleepLogs`) as lists of records inside a `DB` value,
and each of the eight exposed actions of `src/actions/index.ts` as a pure
function from the request context (the optional authenticated user id),
the ambient clock value (the single `new Date()` taken by the handler),
the generated identifiers (`crypto.randomUUID()` results, passed as
explicit parameters), the validated input and the current database to
either a typed `ActionError` or a result together with the new database.

JavaScript truthiness of an optional string input (the `if (input.routineId)`
guards) is modelled by `truthyStr`: `some s` is truthy exactly when `s` is
non-empty.  Ordered selects are modelled by a stable sort of the filtered
rows in insertion order.
-/

/-- Error classifications thrown via `ActionError` in the handlers. -/
inductive ActionError where
  | unauthorized
  | notFound
  | forbidden
deriving DecidableEq, Repr

/-- Row of the `SleepRoutines` table. -/
structure Routine where
  id : String
  userId : String
  name : String
  goalDescription : Option String
  targetBedTimeLocal : Option String
  targetWakeTimeLocal : Option String
  timeZone : Option String
  notes : Option String
  isActive : Bool
  createdAt : Nat
  updatedAt : Nat
deriving DecidableEq, Repr

/-- Row of the `SleepRoutineSteps` table. -/
structure RoutineStep where
  id : String
  routineId : String
  orderIndex : Int
  title : String
  description : Option String
  minutesBeforeBed : Option Int
  createdAt : Nat
deriving DecidableEq, Repr

/-- Row of the `SleepLogs` table. -/
structure SleepLog where
  id : String
  userId : String
  routineId : Option String
  sleepDate : Nat
  bedTime : Option Nat
  wakeTime : Option Nat
  sleepQualityScore : Option Int
  notes : Option String
  createdAt : Nat
deriving DecidableEq, Repr

/-- Full database state: the three tables, rows in insertion order. -/
structure DB where
  sleepRoutines : List Routine
  sleepRoutineSteps : List RoutineStep
  sleepLogs : List SleepLog
deriving DecidableEq, Repr

/-- Function `requireUser`: resolve the user from the request context or
throw `UNAUTHORIZED`. -/
def requireUser (ctxUser : Option String) : Except ActionError String :=
  match ctxUser with
  | none => .error .unauthorized
  | some user => .ok user

/-- JavaScript truthiness of an optional string: present and non-empty. -/
def truthyStr : Option String → Bool
  | some s => s != ""
  | none => false

/-- Sparse-patch step for a required column: a present input value replaces
the stored one, an absent input leaves it. -/
def patchReq {α : Type} (field : Option α) (old : α) : α :=
  field.getD old

/-- Sparse-patch step for an optional column: a present input value replaces
the stored one, an absent input leaves it. -/
def patchOpt {α : Type} (field : Option α) (old : Option α) : Option α :=
  match field with
  | some v => some v
  | none => old

/-- One element of the `steps` array accepted by create/update routine
(`routineStepInput` schema). -/
structure RoutineStepInput where
  title : String
  description : Option String
  minutesBeforeBed : Option Int
  orderIndex : Option Int
deriving DecidableEq, Repr

/-- Input of `createRoutine` (`routineBaseFields` plus optional `steps`). -/
structure CreateRoutineInput where
  name : String
  goalDescription : Option String
  targetBedTimeLocal : Option String
  targetWakeTimeLocal : Option String
  timeZone : Option String
  notes : Option String
  steps : Option (List RoutineStepInput)
deriving DecidableEq, Repr

/-- Input of `updateRoutine`: `id` plus every base field made optional,
plus the optional replacement `steps` list. -/
structure UpdateRoutineInput where
  id : String
  name : Option String
  goalDescription : Option String
  targetBedTimeLocal : Option String
  targetWakeTimeLocal : Option String
  timeZone : Option String
  notes : Option String
  steps : Option (List RoutineStepInput)
deriving DecidableEq, Repr

/-- Input of `createSleepLog` (`sleepLogFields` schema). -/
structure SleepLogInput where
  routineId : Option String
  sleepDate : Option Nat
  bedTime : Option Nat
  wakeTime : Option Nat
  sleepQualityScore : Option Int
  notes : Option String
deriving DecidableEq, Repr

/-- Input of `updateSleepLog`: `id` plus every log field optional. -/
structure UpdateSleepLogInput where
  id : String
  routineId : Option String
  sleepDate : Option Nat
  bedTime : Option Nat
  wakeTime : Option Nat
  sleepQualityScore : Option Int
  notes : Option String
deriving DecidableEq, Repr

/-- Step rows built by `input.steps.map((step, index) => ...)` in the create
and update handlers: order index defaults to the 1-based position. -/
def stepValuesOf (routineId : String) (sid : Nat → String) (now : Nat)
    (steps : List RoutineStepInput) : List RoutineStep :=
  steps.mapIdx fun index step =>
    { id := sid index
      routineId := routineId
      orderIndex := step.orderIndex.getD ((index : Int) + 1)
      title := step.title
      description := step.description
      minutesBeforeBed := step.minutesBeforeBed
      createdAt := now }

/-- Handler of the `createRoutine` action.  `routineId` is the generated
routine id, `sid i` the id generated for the i-th step. -/
def createRoutine (ctxUser : Option String) (now : Nat) (routineId : String)
    (sid : Nat → String) (input : CreateRoutineInput) (db : DB) :
    Except ActionError (String × DB) :=
  match requireUser ctxUser with
  | .error e => .error e
  | .ok user =>
    let routine : Routine :=
      { id := routineId
        userId := user
        name := input.name
        goalDescription := input.goalDescription
        targetBedTimeLocal := input.targetBedTimeLocal
        targetWakeTimeLocal := input.targetWakeTimeLocal
        timeZone := input.timeZone
        notes := input.notes
        isActive := true
        createdAt := now
        updatedAt := now }
    let db1 : DB := { db with sleepRoutines := db.sleepRoutines ++ [routine] }
    let db2 : DB :=
      match input.steps with
      | some steps =>
        if steps.isEmpty then db1
        else { db1 with sleepRoutineSteps :=
                db1.sleepRoutineSteps ++ stepValuesOf routineId sid now steps }
      | none => db1
    .ok (routineId, db2)

/-- Sparse patch applied by `updateRoutine`: only the present base fields are
copied into the update payload, and `updatedAt` is always set to `now`.
The handler's emptiness guard on the payload is always passed because
`updatedAt` is always present. -/
def applyRoutinePatch (input : UpdateRoutineInput) (now : Nat) (r : Routine) :
    Routine :=
  { r with
    updatedAt := now
    name := patchReq input.name r.name
    goalDescription := patchOpt input.goalDescription r.goalDescription
    targetBedTimeLocal := patchOpt input.targetBedTimeLocal r.targetBedTimeLocal
    targetWakeTimeLocal := patchOpt input.targetWakeTimeLocal r.targetWakeTimeLocal
    timeZone := patchOpt input.timeZone r.timeZone
    notes := patchOpt input.notes r.notes }

/-- Handler of the `updateRoutine` action. -/
def updateRoutine (ctxUser : Option String) (now : Nat) (sid : Nat → String)
    (input : UpdateRoutineInput) (db : DB) : Except ActionError DB :=
  match requireUser ctxUser with
  | .error e => .error e
  | .ok user =>
    match (db.sleepRoutines.filter fun r =>
        r.id == input.id && r.userId == user).head? with
    | none => .error .notFound
    | some _ =>
      let db1 : DB :=
        { db with sleepRoutines := db.sleepRoutines.map fun r =>
            if r.id == input.id && r.userId == user then
              applyRoutinePatch input now r
            else r }
      let db2 : DB :=
        match input.steps with
        | none => db1
        | some steps =>
          let remaining := db1.sleepRoutineSteps.filter fun s =>
            !(s.routineId == input.id)
          if steps.isEmpty then { db1 with sleepRoutineSteps := remaining }
          else { db1 with sleepRoutineSteps :=
                  remaining ++ stepValuesOf input.id sid now steps }
      .ok db2

/-- Handler of the `archiveRoutine` action: scoped update of the active flag,
`NOT_FOUND` when zero rows were affected. -/
def archiveRoutine (ctxUser : Option String) (now : Nat) (id : String)
    (db : DB) : Except ActionError DB :=
  match requireUser ctxUser with
  | .error e => .error e
  | .ok user =>
    let rowsAffected := db.sleepRoutines.countP fun r =>
      r.id == id && r.userId == user
    if rowsAffected == 0 then .error .notFound
    else
      .ok { db with sleepRoutines := db.sleepRoutines.map fun r =>
              if r.id == id && r.userId == user then
                { r with isActive := false, updatedAt := now }
              else r }

/-- Ordering used by the ascending order-index select of steps. -/
def stepOrd (a b : RoutineStep) : Prop :=
  a.orderIndex ≤ b.orderIndex

instance : DecidableRel stepOrd := fun a b =>
  inferInstanceAs (Decidable (a.orderIndex ≤ b.orderIndex))

instance : IsTotal RoutineStep stepOrd :=
  ⟨fun a b => le_total a.orderIndex b.orderIndex⟩

instance : IsTrans RoutineStep stepOrd :=
  ⟨fun _ _ _ => le_trans⟩

/-- Success payload of `getRoutineWithSteps`. -/
structure RoutineWithSteps where
  routine : Routine
  steps : List RoutineStep
deriving DecidableEq, Repr

/-- Handler of the `getRoutineWithSteps` action. -/
def getRoutineWithSteps (ctxUser : Option String) (id : String) (db : DB) :
    Except ActionError RoutineWithSteps :=
  match requireUser ctxUser with
  | .error e => .error e
  | .ok user =>
    match (db.sleepRoutines.filter fun r =>
        r.id == id && r.userId == user).head? with
    | none => .error .notFound
    | some routine =>
      .ok { routine := routine
            steps := List.insertionSort stepOrd
              (db.sleepRoutineSteps.filter fun s => s.routineId == id) }

/-- Ordering used by the descending last-update select of routines. -/
def routineOrd (a b : Routine) : Prop :=
  b.updatedAt ≤ a.updatedAt

instance : DecidableRel routineOrd := fun a b =>
  inferInstanceAs (Decidable (b.updatedAt ≤ a.updatedAt))

instance : IsTotal Routine routineOrd :=
  ⟨fun a b => le_total b.updatedAt a.updatedAt⟩

instance : IsTrans Routine routineOrd :=
  ⟨fun _ _ _ hab hbc => le_trans hbc hab⟩

/-- Success payload of `listMyRoutines`. -/
structure RoutineList where
  items : List Routine
  total : Nat
deriving DecidableEq, Repr

/-- Handler of the `listMyRoutines` action. -/
def listMyRoutines (ctxUser : Option String) (includeInactive : Bool)
    (db : DB) : Except ActionError RoutineList :=
  match requireUser ctxUser with
  | .error e => .error e
  | .ok user =>
    let routines := List.insertionSort routineOrd
      (db.sleepRoutines.filter fun r =>
        r.userId == user && (includeInactive || r.isActive))
    .ok { items := routines, total := routines.length }

/-- Shared routine-reference block of `createSleepLog` and `updateSleepLog`:
when the supplied `routineId` is truthy, the routine must exist and belong
to the calling user, otherwise `FORBIDDEN`. -/
def routineRefCheck (db : DB) (user : String) (routineId : Option String) :
    Except ActionError Unit :=
  match routineId with
  | some rid =>
    if rid != "" then
      if ((db.sleepRoutines.filter fun r =>
          r.id == rid && r.userId == user).head?).isSome then .ok ()
      else .error .forbidden
    else .ok ()
  | none => .ok ()

/-- Handler of the `createSleepLog` action. -/
def createSleepLog (ctxUser : Option String) (now : Nat) (logId : String)
    (input : SleepLogInput) (db : DB) : Except ActionError (String × DB) :=
  match requireUser ctxUser with
  | .error e => .error e
  | .ok user =>
    match routineRefCheck db user input.routineId with
    | .error e => .error e
    | .ok _ =>
      let log : SleepLog :=
        { id := logId
          userId := user
          routineId := input.routineId
          sleepDate := input.sleepDate.getD now
          bedTime := input.bedTime
          wakeTime := input.wakeTime
          sleepQualityScore := input.sleepQualityScore
          notes := input.notes
          createdAt := now }
      .ok (logId, { db with sleepLogs := db.sleepLogs ++ [log] })

/-- Sparse patch applied by `updateSleepLog`: only the present fields are
copied; there is no update-timestamp column on logs. -/
def applySleepLogPatch (input : UpdateSleepLogInput) (l : SleepLog) :
    SleepLog :=
  { l with
    routineId := patchOpt input.routineId l.routineId
    sleepDate := patchReq input.sleepDate l.sleepDate
    bedTime := patchOpt input.bedTime l.bedTime
    wakeTime := patchOpt input.wakeTime l.wakeTime
    sleepQualityScore := patchOpt input.sleepQualityScore l.sleepQualityScore
    notes := patchOpt input.notes l.notes }

/-- Guard `Object.keys(updateData).length > 0` of `updateSleepLog`: at least
one field is present in the patch. -/
def sleepLogPatchPresent (input : UpdateSleepLogInput) : Bool :=
  input.routineId.isSome || input.sleepDate.isSome || input.bedTime.isSome ||
    input.wakeTime.isSome || input.sleepQualityScore.isSome ||
    input.notes.isSome

/-- Handler of the `updateSleepLog` action. -/
def updateSleepLog (ctxUser : Option String) (input : UpdateSleepLogInput)
    (db : DB) : Except ActionError DB :=
  match requireUser ctxUser with
  | .error e => .error e
  | .ok user =>
    match (db.sleepLogs.filter fun l =>
        l.id == input.id && l.userId == user).head? with
    | none => .error .notFound
    | some _ =>
      match routineRefCheck db user input.routineId with
      | .error e => .error e
      | .ok _ =>
        if sleepLogPatchPresent input then
          .ok { db with sleepLogs := db.sleepLogs.map fun l =>
                  if l.id == input.id && l.userId == user then
                    applySleepLogPatch input l
                  else l }
        else .ok db

/-- Ordering used by the descending sleep-date, descending creation-time
select of sleep logs. -/
def logOrd (a b : SleepLog) : Prop :=
  b.sleepDate < a.sleepDate ∨
    (a.sleepDate = b.sleepDate ∧ b.createdAt ≤ a.createdAt)

instance : DecidableRel logOrd := fun a b =>
  inferInstanceAs (Decidable (_ ∨ _))

instance : IsTotal SleepLog logOrd := by
  refine ⟨fun a b => ?_⟩
  rcases lt_trichotomy a.sleepDate b.sleepDate with h | h | h
  · exact Or.inr (Or.inl h)
  · rcases le_total a.createdAt b.createdAt with h' | h'
    · exact Or.inr (Or.inr ⟨h.symm, h'⟩)
    · exact Or.inl (Or.inr ⟨h, h'⟩)
  · exact Or.inl (Or.inl h)

instance : IsTrans SleepLog logOrd := by
  refine ⟨fun a b c hab hbc => ?_⟩
  rcases hab with h1 | ⟨h1, h1'⟩
  · rcases hbc with h2 | ⟨h2, h2'⟩
    · exact Or.inl (lt_trans h2 h1)
    · exact Or.inl (h2 ▸ h1)
  · rcases hbc with h2 | ⟨h2, h2'⟩
    · exact Or.inl (h1 ▸ h2)
    · exact Or.inr ⟨h1.trans h2, le_trans h2' h1'⟩

/-- Row filter of `listSleepLogs`: owner plus the optional routine filter,
which is only pushed when the supplied id is truthy. -/
def listSleepLogsPred (user : String) (routineId : Option String)
    (l : SleepLog) : Bool :=
  l.userId == user &&
    (match routineId with
     | some rid => if rid != "" then l.routineId == some rid else true
     | none => true)

/-- Success payload of `listSleepLogs`. -/
structure SleepLogPage where
  items : List SleepLog
  page : Nat
  pageSize : Nat
  total : Nat
deriving DecidableEq, Repr

/-- Handler of the `listSleepLogs` action. -/
def listSleepLogs (ctxUser : Option String) (page pageSize : Nat)
    (routineId : Option String) (db : DB) : Except ActionError SleepLogPage :=
  match requireUser ctxUser with
  | .error e => .error e
  | .ok user =>
    let offset := (page - 1) * pageSize
    let logs := ((List.insertionSort logOrd (db.sleepLogs.filter
      (listSleepLogsPred user routineId))).drop offset).take pageSize
    .ok { items := logs, page := page, pageSize := pageSize,
          total := logs.length }

/-! ## Helper lemmas -/

theorem stepValuesOf_length (routineId : String) (sid : Nat → String)
    (now : Nat) (steps : List RoutineStepInput) :
    (stepValuesOf routineId sid now steps).length = steps.length := by
  simp [stepValuesOf]

theorem stepValuesOf_mem (routineId : String) (sid : Nat → String) (now : Nat)
    (steps : List RoutineStepInput) :
    ∀ s ∈ stepValuesOf routineId sid now steps,
      s.routineId = routineId ∧ s.createdAt = now := by
  intro s hs
  simp only [stepValuesOf, List.mem_mapIdx] at hs
  obtain ⟨i, hi, rfl⟩ := hs
  exact ⟨rfl, rfl⟩

theorem stepValuesOf_getElem (routineId : String) (sid : Nat → String)
    (now : Nat) (steps : List RoutineStepInput) (i : Nat)
    (hi : i < (stepValuesOf routineId sid now steps).length)
    (hi' : i < steps.length) :
    (stepValuesOf routineId sid now steps)[i] =
      { id := sid i
        routineId := routineId
        orderIndex := (steps[i]).orderIndex.getD ((i : Int) + 1)
        title := (steps[i]).title
        description := (steps[i]).description
        minutesBeforeBed := (steps[i]).minutesBeforeBed
        createdAt := now } := by
  simp [stepValuesOf, List.getElem_mapIdx]

/-! ## Claim theorems -/

/-- C5: every one of the eight exposed actions invoked with no authenticated
user in the request context fails with the `UNAUTHORIZED` classification,
for every input and every database state, and returns no modified database
(no storage read or write is performed). -/
theorem all_actions_require_user (now : Nat) (rid lid aid gid : String)
    (sid : Nat → String) (ci : CreateRoutineInput) (ui : UpdateRoutineInput)
    (si : SleepLogInput) (usi : UpdateSleepLogInput) (inc : Bool)
    (page pageSize : Nat) (routineId : Option String) (db : DB) :
    createRoutine none now rid sid ci db = .error .unauthorized ∧
    updateRoutine none now sid ui db = .error .unauthorized ∧
    archiveRoutine none now aid db = .error .unauthorized ∧
    getRoutineWithSteps none gid db = .error .unauthorized ∧
    listMyRoutines none inc db = .error .unauthorized ∧
    createSleepLog none now lid si db = .error .unauthorized ∧
    updateSleepLog none usi db = .error .unauthorized ∧
    listSleepLogs none page pageSize routineId db = .error .unauthorized :=
  ⟨rfl, rfl, rfl, rfl, rfl, rfl, rfl, rfl⟩

/-- C10: `createRoutine` takes a single clock reading for the whole
operation: the created routine row has equal creation and update
timestamps, and every step row inserted alongside it carries the same
creation timestamp as the routine. -/
theorem createRoutine_single_timestamp (u : String) (now : Nat)
    (rid res : String) (sid : Nat → String) (input : CreateRoutineInput)
    (db db' : DB)
    (h : createRoutine (some u) now rid sid input db = .ok (res, db')) :
    ∃ r : Routine, db'.sleepRoutines = db.sleepRoutines ++ [r] ∧
      r.createdAt = r.updatedAt ∧
      ∃ newSteps : List RoutineStep,
        db'.sleepRoutineSteps = db.sleepRoutineSteps ++ newSteps ∧
        ∀ s ∈ newSteps, s.createdAt = r.createdAt := by
  simp only [createRoutine, requireUser, Except.ok.injEq, Prod.mk.injEq] at h
  obtain ⟨-, hdb⟩ := h
  subst hdb
  refine ⟨⟨rid, u, input.name, input.goalDescription, input.targetBedTimeLocal,
    input.targetWakeTimeLocal, input.timeZone, input.notes, true, now, now⟩,
    ?_, rfl, ?_⟩
  · cases hst : input.steps with
    | none => simp [hst]
    | some steps => by_cases he : steps.isEmpty <;> simp [hst, he]
  · cases hst : input.steps with
    | none => exact ⟨[], by simp [hst], by simp⟩
    | some steps =>
      by_cases he : steps.isEmpty
      · exact ⟨[], by simp [hst, he], by simp⟩
      · refine ⟨stepValuesOf rid sid now steps, by simp [hst, he], ?_⟩
        intro s hs
        exact (stepValuesOf_mem rid sid now steps s hs).2

theorem head?_isSome_iff {α : Type} (l : List α) :
    l.head?.isSome = true ↔ l ≠ [] := by
  cases l <;> simp

theorem routineMatch_iff (db : DB) (s u : String) :
    ((db.sleepRoutines.filter fun r =>
        r.id == s && r.userId == u).head?).isSome = true ↔
      ∃ r ∈ db.sleepRoutines, r.id = s ∧ r.userId = u := by
  rw [head?_isSome_iff]
  constructor
  · intro h
    rcases List.exists_cons_of_ne_nil h with ⟨x, xs, hfil⟩
    have hx : x ∈ db.sleepRoutines.filter fun r =>
        r.id == s && r.userId == u := by
      rw [hfil]; exact List.mem_cons_self x xs
    rcases List.mem_filter.mp hx with ⟨hmem, hpred⟩
    simp only [Bool.and_eq_true, beq_iff_eq] at hpred
    exact ⟨x, hmem, hpred⟩
  · rintro ⟨r, hr, h1, h2⟩ hnil
    rw [List.filter_eq_nil_iff] at hnil
    exact hnil r hr (by simp [h1, h2])

/-- C9: in `createSleepLog` and `updateSleepLog` the routine-ownership check
runs only when the supplied `routineId` is a non-empty string.  A call with
`routineId` equal to the empty string skips the ownership and existence
check entirely, for every database state, and the empty-string routine
reference is nevertheless written to the log: inserted on create, included
in the patch on update. -/
theorem emptyString_routineRef_skipped (u : String) (now : Nat)
    (logId : String) (input : SleepLogInput) (input' : UpdateSleepLogInput)
    (db : DB) (hc : input.routineId = some "")
    (hu : input'.routineId = some "") :
    (createSleepLog (some u) now logId input db = .ok (logId,
      { db with sleepLogs := db.sleepLogs ++
          [{ id := logId, userId := u, routineId := some "",
             sleepDate := input.sleepDate.getD now, bedTime := input.bedTime,
             wakeTime := input.wakeTime,
             sleepQualityScore := input.sleepQualityScore,
             notes := input.notes, createdAt := now }] })) ∧
    (((db.sleepLogs.filter fun l => l.id == input'.id && l.userId == u) ≠ []) →
      updateSleepLog (some u) input' db = .ok
        { db with sleepLogs := db.sleepLogs.map fun l =>
            if l.id == input'.id && l.userId == u then
              applySleepLogPatch input' l
            else l }) ∧
    (∀ l : SleepLog, (applySleepLogPatch input' l).routineId = some "") := by
  refine ⟨?_, ?_, ?_⟩
  · simp [createSleepLog, requireUser, routineRefCheck, hc]
  · intro hne
    rcases List.exists_cons_of_ne_nil hne with ⟨x, xs, hfil⟩
    have hpres : sleepLogPatchPresent input' = true := by
      simp [sleepLogPatchPresent, hu]
    simp [updateSleepLog, requireUser, hfil, routineRefCheck, hu, hpres]
  · intro l
    simp [applySleepLogPatch, patchOpt, hu]

/-- C2 (amended): for every authenticated `createSleepLog` call supplying a
non-empty routine reference, the operation fails with the `FORBIDDEN`
classification exactly when that `routineId` does not resolve to a routine
owned by the calling user; a call supplying no routine reference never
fails with `FORBIDDEN`. -/
theorem createSleepLog_forbidden_iff (u : String) (now : Nat)
    (logId : String) (input : SleepLogInput) (db : DB) :
    (∀ s, input.routineId = some s → s ≠ "" →
      (createSleepLog (some u) now logId input db = .error .forbidden ↔
        ¬ ∃ r ∈ db.sleepRoutines, r.id = s ∧ r.userId = u)) ∧
    (input.routineId = none →
      ∀ ctxUser, createSleepLog ctxUser now logId input db ≠
        .error .forbidden) := by
  constructor
  · intro s hs hne
    have hbne : (s != "") = true := bne_iff_ne.mpr hne
    by_cases hex : ∃ r ∈ db.sleepRoutines, r.id = s ∧ r.userId = u
    · simp [createSleepLog, requireUser, routineRefCheck, hs, hbne, hex]
    · simp [createSleepLog, requireUser, routineRefCheck, hs, hbne, hex]
  · intro hnone ctxUser
    cases ctxUser with
    | none => simp [createSleepLog, requireUser]
    | some v => simp [createSleepLog, requireUser, routineRefCheck, hnone]

/-- C2 counterexample: the claim as stated fails for an empty-string routine
reference.  The input supplies a routine reference (`routineId` present,
value `""`), that reference resolves to no routine owned by the calling
user, and yet the call does not fail with `FORBIDDEN`: it succeeds. -/
theorem createSleepLog_emptyRef_cex :
    (∃ dbOut, createSleepLog (some "u") 0 "L"
        { routineId := some "", sleepDate := none, bedTime := none,
          wakeTime := none, sleepQualityScore := none, notes := none }
        ⟨[], [], []⟩ = .ok ("L", dbOut)) ∧
    ({ routineId := some "", sleepDate := none, bedTime := none,
       wakeTime := none, sleepQualityScore := none,
       notes := none : SleepLogInput }.routineId ≠ none) ∧
    ¬ ∃ r ∈ (⟨[], [], []⟩ : DB).sleepRoutines, r.id = "" ∧ r.userId = "u" := by
  refine ⟨⟨_, rfl⟩, by simp, by simp⟩

theorem updateRoutine_routines_eq (u : String) (now : Nat) (sid : Nat → String)
    (input : UpdateRoutineInput) (db db' : DB)
    (h : updateRoutine (some u) now sid input db = .ok db') :
    db'.sleepRoutines = db.sleepRoutines.map fun r =>
      if r.id == input.id && r.userId == u then applyRoutinePatch input now r
      else r := by
  cases hh : (db.sleepRoutines.filter fun r =>
      r.id == input.id && r.userId == u).head? with
  | none => simp [updateRoutine, requireUser, hh] at h
  | some r0 =>
    simp only [updateRoutine, requireUser, hh, Except.ok.injEq] at h
    subst h
    cases input.steps with
    | none => rfl
    | some steps => by_cases he : steps.isEmpty <;> simp [he]

/-- C3: a successful `updateRoutine` is a sparse patch on the routine row.
Fields absent from the input keep their prior values, the owner id, the
creation timestamp and the active flag are never touched by the patch, the
update timestamp of the patched row is always refreshed to the operation
clock, and rows of other routines are left entirely unchanged. -/
theorem updateRoutine_sparse_patch (u : String) (now : Nat)
    (sid : Nat → String) (input : UpdateRoutineInput) (db db' : DB)
    (h : updateRoutine (some u) now sid input db = .ok db') :
    db'.sleepRoutines.length = db.sleepRoutines.length ∧
    ∀ i (h1 : i < db.sleepRoutines.length) (h2 : i < db'.sleepRoutines.length),
      (db'.sleepRoutines[i]).userId = (db.sleepRoutines[i]).userId ∧
      (db'.sleepRoutines[i]).createdAt = (db.sleepRoutines[i]).createdAt ∧
      (db'.sleepRoutines[i]).isActive = (db.sleepRoutines[i]).isActive ∧
      (input.name = none →
        (db'.sleepRoutines[i]).name = (db.sleepRoutines[i]).name) ∧
      (input.goalDescription = none →
        (db'.sleepRoutines[i]).goalDescription =
          (db.sleepRoutines[i]).goalDescription) ∧
      (input.targetBedTimeLocal = none →
        (db'.sleepRoutines[i]).targetBedTimeLocal =
          (db.sleepRoutines[i]).targetBedTimeLocal) ∧
      (input.targetWakeTimeLocal = none →
        (db'.sleepRoutines[i]).targetWakeTimeLocal =
          (db.sleepRoutines[i]).targetWakeTimeLocal) ∧
      (input.timeZone = none →
        (db'.sleepRoutines[i]).timeZone = (db.sleepRoutines[i]).timeZone) ∧
      (input.notes = none →
        (db'.sleepRoutines[i]).notes = (db.sleepRoutines[i]).notes) ∧
      ((db.sleepRoutines[i]).id = input.id ∧
          (db.sleepRoutines[i]).userId = u →
        (db'.sleepRoutines[i]).updatedAt = now) ∧
      (¬((db.sleepRoutines[i]).id = input.id ∧
          (db.sleepRoutines[i]).userId = u) →
        db'.sleepRoutines[i] = db.sleepRoutines[i]) := by
  have hmap := updateRoutine_routines_eq u now sid input db db' h
  refine ⟨by rw [hmap, List.length_map], ?_⟩
  intro i h1 h2
  simp only [hmap, List.getElem_map]
  by_cases hcond : ((db.sleepRoutines[i]).id = input.id ∧
      (db.sleepRoutines[i]).userId = u)
  · have hb : ((db.sleepRoutines[i]).id == input.id &&
        (db.sleepRoutines[i]).userId == u) = true := by
      simp [hcond.1, hcond.2]
    rw [if_pos hb]
    refine ⟨rfl, rfl, rfl, ?_, ?_, ?_, ?_, ?_, ?_, fun _ => rfl,
      fun hc => absurd hcond hc⟩
    all_goals intro hnone
    all_goals simp [applyRoutinePatch, patchReq, patchOpt, hnone]
  · have hb : ¬(((db.sleepRoutines[i]).id == input.id &&
        (db.sleepRoutines[i]).userId == u) = true) := by
      rcases not_and_or.mp hcond with hx | hx <;> simp [hx]
    rw [if_neg hb]
    exact ⟨rfl, rfl, rfl, fun _ => rfl, fun _ => rfl, fun _ => rfl,
      fun _ => rfl, fun _ => rfl, fun _ => rfl,
      fun hc => absurd hc hcond, fun _ => rfl⟩

theorem updateRoutine_steps_eq_empty (u : String) (now : Nat)
    (sid : Nat → String) (input : UpdateRoutineInput) (db db' : DB)
    (hs : input.steps = some [])
    (h : updateRoutine (some u) now sid input db = .ok db') :
    db'.sleepRoutineSteps =
      db.sleepRoutineSteps.filter fun s => !(s.routineId == input.id) := by
  cases hh : (db.sleepRoutines.filter fun r =>
      r.id == input.id && r.userId == u).head? with
  | none => simp [updateRoutine, requireUser, hh] at h
  | some r0 =>
    simp only [updateRoutine, requireUser, hh, Except.ok.injEq] at h
    subst h
    rw [hs]
    simp

theorem updateRoutine_steps_eq_omitted (u : String) (now : Nat)
    (sid : Nat → String) (input : UpdateRoutineInput) (db db' : DB)
    (hs : input.steps = none)
    (h : updateRoutine (some u) now sid input db = .ok db') :
    db'.sleepRoutineSteps = db.sleepRoutineSteps := by
  cases hh : (db.sleepRoutines.filter fun r =>
      r.id == input.id && r.userId == u).head? with
  | none => simp [updateRoutine, requireUser, hh] at h
  | some r0 =>
    simp only [updateRoutine, requireUser, hh, Except.ok.injEq] at h
    subst h
    rw [hs]

/-- C4: a successful `updateRoutine` that supplies an empty step list deletes
all existing steps of the target routine (leaving rows of other routines),
while a successful `updateRoutine` that omits the step list leaves the step
table entirely unchanged; whenever the routine previously had at least one
step the two resulting step tables differ. -/
theorem updateRoutine_emptySteps_vs_omitted (u : String) (now : Nat)
    (sid : Nat → String) (id : String) (input₁ input₂ : UpdateRoutineInput)
    (db db₁ db₂ : DB)
    (h1s : input₁.steps = some []) (h1i : input₁.id = id)
    (h2s : input₂.steps = none)
    (h1 : updateRoutine (some u) now sid input₁ db = .ok db₁)
    (h2 : updateRoutine (some u) now sid input₂ db = .ok db₂) :
    db₁.sleepRoutineSteps =
      db.sleepRoutineSteps.filter (fun s => !(s.routineId == id)) ∧
    db₂.sleepRoutineSteps = db.sleepRoutineSteps ∧
    ((∃ s ∈ db.sleepRoutineSteps, s.routineId = id) →
      db₁.sleepRoutineSteps ≠ db₂.sleepRoutineSteps) := by
  have ha := updateRoutine_steps_eq_empty u now sid input₁ db db₁ h1s h1
  have hb := updateRoutine_steps_eq_omitted u now sid input₂ db db₂ h2s h2
  rw [h1i] at ha
  refine ⟨ha, hb, ?_⟩
  rintro ⟨s, hsm, hsid⟩ heq
  have hlt : (db.sleepRoutineSteps.filter
      (fun s => !(s.routineId == id))).length <
      db.sleepRoutineSteps.length := by
    rw [List.length_filter_lt_length_iff_exists]
    exact ⟨s, hsm, by simp [hsid]⟩
  rw [ha, hb] at heq
  rw [heq] at hlt
  exact absurd hlt (lt_irrefl _)

theorem archiveRoutine_post (u : String) (now : Nat) (id : String)
    (db db' : DB) (h : archiveRoutine (some u) now id db = .ok db') :
    db'.sleepRoutines = (db.sleepRoutines.map fun r =>
      if r.id == id && r.userId == u then
        { r with isActive := false, updatedAt := now }
      else r) ∧
    (∀ r ∈ db'.sleepRoutines, r.id = id → r.userId = u →
      r.isActive = false ∧ r.updatedAt = now) := by
  by_cases hc : (db.sleepRoutines.countP fun r =>
      r.id == id && r.userId == u) = 0
  · simp [archiveRoutine, requireUser, hc] at h
  · simp only [archiveRoutine, requireUser, beq_iff_eq, if_neg hc,
      Except.ok.injEq] at h
    subst h
    refine ⟨rfl, ?_⟩
    intro r' hr' hid huser
    rcases List.mem_map.mp hr' with ⟨r, hr, hfr⟩
    by_cases hm : (r.id == id && r.userId == u) = true
    · rw [if_pos hm] at hfr
      rw [← hfr]
      exact ⟨rfl, rfl⟩
    · rw [if_neg hm] at hfr
      subst hfr
      exact absurd (by simp [hid, huser]) hm

theorem archiveRoutine_ok_of_match (u : String) (now : Nat) (id : String)
    (db : DB) (hex : ∃ r ∈ db.sleepRoutines, r.id = id ∧ r.userId = u) :
    ∃ db', archiveRoutine (some u) now id db = .ok db' := by
  have hc : ¬(db.sleepRoutines.countP fun r =>
      r.id == id && r.userId == u) = 0 := by
    have h0 : 0 < db.sleepRoutines.countP fun r =>
        r.id == id && r.userId == u := by
      rw [List.countP_pos_iff]
      rcases hex with ⟨r, hr, h1, h2⟩
      exact ⟨r, hr, by simp [h1, h2]⟩
    omega
  exact ⟨{ db with sleepRoutines := db.sleepRoutines.map fun r =>
      if r.id == id && r.userId == u then
        { r with isActive := false, updatedAt := now }
      else r },
    by simp only [archiveRoutine, requireUser, beq_iff_eq, if_neg hc]⟩

theorem archiveRoutine_notFound_of_noMatch (u : String) (now : Nat)
    (id : String) (db : DB)
    (hnone : ¬∃ r ∈ db.sleepRoutines, r.id = id ∧ r.userId = u) :
    archiveRoutine (some u) now id db = .error .notFound := by
  have hc : (db.sleepRoutines.countP fun r =>
      r.id == id && r.userId == u) = 0 := by
    by_contra hne
    have h0 := Nat.pos_of_ne_zero hne
    rw [List.countP_pos_iff] at h0
    rcases h0 with ⟨r, hr, hp⟩
    simp only [Bool.and_eq_true, beq_iff_eq] at hp
    exact hnone ⟨r, hr, hp⟩
  simp [archiveRoutine, requireUser, hc]

/-- C6: `archiveRoutine` is idempotent for the owner.  When the caller owns
a routine with the given id, a first call succeeds and every matching row
ends inactive with its update timestamp refreshed, and a second call on the
resulting state also succeeds, re-setting the active flag to false and
refreshing the update timestamp again; when no routine with the given id is
owned by the caller (nonexistent id or foreign owner alike) the call fails
with `NOT_FOUND`, never with `FORBIDDEN`. -/
theorem archiveRoutine_idempotent (u : String) (now now' : Nat) (id : String)
    (db : DB) :
    ((∃ r ∈ db.sleepRoutines, r.id = id ∧ r.userId = u) →
      ∃ db₁ db₂, archiveRoutine (some u) now id db = .ok db₁ ∧
        archiveRoutine (some u) now' id db₁ = .ok db₂ ∧
        (∀ r ∈ db₁.sleepRoutines, r.id = id → r.userId = u →
          r.isActive = false ∧ r.updatedAt = now) ∧
        (∀ r ∈ db₂.sleepRoutines, r.id = id → r.userId = u →
          r.isActive = false ∧ r.updatedAt = now')) ∧
    ((¬∃ r ∈ db.sleepRoutines, r.id = id ∧ r.userId = u) →
      archiveRoutine (some u) now id db = .error .notFound ∧
      ∀ db', archiveRoutine (some u) now id db ≠ .error .forbidden ∧
        archiveRoutine (some u) now id db ≠ .ok db') := by
  constructor
  · intro hex
    rcases archiveRoutine_ok_of_match u now id db hex with ⟨db₁, h1⟩
    have hpost1 := archiveRoutine_post u now id db db₁ h1
    have hex1 : ∃ r ∈ db₁.sleepRoutines, r.id = id ∧ r.userId = u := by
      rcases hex with ⟨r, hr, hid, huser⟩
      rw [hpost1.1]
      refine ⟨if r.id == id && r.userId == u then
          { r with isActive := false, updatedAt := now } else r,
        List.mem_map_of_mem _ hr, ?_⟩
      by_cases hm : (r.id == id && r.userId == u) = true
      · rw [if_pos hm]; exact ⟨hid, huser⟩
      · rw [if_neg hm]; exact ⟨hid, huser⟩
    rcases archiveRoutine_ok_of_match u now' id db₁ hex1 with ⟨db₂, h2⟩
    have hpost2 := archiveRoutine_post u now' id db₁ db₂ h2
    exact ⟨db₁, db₂, h1, h2, hpost1.2, hpost2.2⟩
  · intro hnone
    have hnf := archiveRoutine_notFound_of_noMatch u now id db hnone
    refine ⟨hnf, ?_⟩
    intro db'
    rw [hnf]
    exact ⟨by simp, by simp⟩

/-- C7: `listMyRoutines` returns exactly the caller's routines (restricted
to active ones unless `includeInactive` is set: with the default flag no
inactive routine is ever returned, with the flag set active and inactive
routines of the caller are both returned), ordered descending by
last-update time, and the returned total equals the number of returned
items. -/
theorem listMyRoutines_spec (u : String) (inc : Bool) (db : DB)
    (res : RoutineList) (h : listMyRoutines (some u) inc db = .ok res) :
    res.total = res.items.length ∧
    (∀ r ∈ res.items, r.userId = u) ∧
    (inc = false → ∀ r ∈ res.items, r.isActive = true) ∧
    res.items.Perm (db.sleepRoutines.filter fun r =>
      r.userId == u && (inc || r.isActive)) ∧
    List.Pairwise (fun a b => b.updatedAt ≤ a.updatedAt) res.items := by
  simp only [listMyRoutines, requireUser, Except.ok.injEq] at h
  subst h
  refine ⟨rfl, ?_, ?_, List.perm_insertionSort _ _, ?_⟩
  · intro r hr
    rw [List.mem_insertionSort] at hr
    rcases List.mem_filter.mp hr with ⟨-, hp⟩
    simp only [Bool.and_eq_true, beq_iff_eq] at hp
    exact hp.1
  · intro hfalse r hr
    rw [List.mem_insertionSort] at hr
    rcases List.mem_filter.mp hr with ⟨-, hp⟩
    rw [hfalse] at hp
    simp only [Bool.and_eq_true, Bool.false_or] at hp
    exact hp.2
  · exact List.sorted_insertionSort routineOrd
      (db.sleepRoutines.filter fun r => r.userId == u && (inc || r.isActive))

/-- C8 (amended): `listSleepLogs` returns at most `pageSize` logs owned by
the caller, matching the routine filter whenever a non-empty `routineId`
is supplied, skipping the first `(page-1)*pageSize` matching logs of the
ordered selection, ordered descending by sleep date with descending
creation time as tie-break; the response echoes `page` and `pageSize`, and
`total` equals the number of items in this page. -/
theorem listSleepLogs_spec (u : String) (page pageSize : Nat)
    (routineId : Option String) (db : DB) (res : SleepLogPage)
    (hpage : 1 ≤ page)
    (h : listSleepLogs (some u) page pageSize routineId db = .ok res) :
    res.page = page ∧ res.pageSize = pageSize ∧
    res.total = res.items.length ∧
    res.items.length ≤ pageSize ∧
    (∀ l ∈ res.items, l.userId = u) ∧
    (∀ s, routineId = some s → s ≠ "" →
      ∀ l ∈ res.items, l.routineId = some s) ∧
    List.Pairwise (fun a b => b.sleepDate < a.sleepDate ∨
      (a.sleepDate = b.sleepDate ∧ b.createdAt ≤ a.createdAt)) res.items ∧
    ∃ skipped rest,
      List.insertionSort logOrd
          (db.sleepLogs.filter (listSleepLogsPred u routineId)) =
        skipped ++ res.items ++ rest ∧
      skipped.length = min ((page - 1) * pageSize)
        (db.sleepLogs.filter (listSleepLogsPred u routineId)).length := by
  simp only [listSleepLogs, requireUser, Except.ok.injEq] at h
  subst h
  have hsub : List.Sublist
      (((List.insertionSort logOrd (db.sleepLogs.filter
        (listSleepLogsPred u routineId))).drop
          ((page - 1) * pageSize)).take pageSize)
      (List.insertionSort logOrd (db.sleepLogs.filter
        (listSleepLogsPred u routineId))) :=
    (List.take_sublist _ _).trans (List.drop_sublist _ _)
  refine ⟨rfl, rfl, rfl, List.length_take_le _ _, ?_, ?_, ?_, ?_⟩
  · intro l hl
    have hl' := (List.mem_insertionSort logOrd).mp (hsub.mem hl)
    rcases List.mem_filter.mp hl' with ⟨-, hp⟩
    simp only [listSleepLogsPred, Bool.and_eq_true, beq_iff_eq] at hp
    exact hp.1
  · intro s hs hne l hl
    have hl' := (List.mem_insertionSort logOrd).mp (hsub.mem hl)
    rcases List.mem_filter.mp hl' with ⟨-, hp⟩
    rw [hs] at hp
    have hbne : (s != "") = true := bne_iff_ne.mpr hne
    simp only [listSleepLogsPred, hbne, if_pos, Bool.and_eq_true,
      beq_iff_eq] at hp
    exact hp.2
  · exact (List.sorted_insertionSort logOrd
      (db.sleepLogs.filter (listSleepLogsPred u routineId))).sublist hsub
  · refine ⟨(List.insertionSort logOrd (db.sleepLogs.filter
        (listSleepLogsPred u routineId))).take ((page - 1) * pageSize),
      ((List.insertionSort logOrd (db.sleepLogs.filter
        (listSleepLogsPred u routineId))).drop
          ((page - 1) * pageSize)).drop pageSize,
      ?_, ?_⟩
    · rw [List.append_assoc, List.take_append_drop, List.take_append_drop]
    · rw [List.length_take, List.length_insertionSort]

/-- C8 counterexample: the claim as stated fails for an empty-string routine
filter.  The `routineId` filter is given (value `""`), yet the returned
page contains a log whose routine reference is `"x"`, which does not match
the supplied filter value: the empty-string filter is silently dropped. -/
theorem listSleepLogs_emptyFilter_cex :
    listSleepLogs (some "u") 1 20 (some "")
        ⟨[], [], [⟨"L", "u", some "x", 5, none, none, none, none, 5⟩]⟩ =
      .ok ⟨[⟨"L", "u", some "x", 5, none, none, none, none, 5⟩], 1, 20, 1⟩ ∧
    (some "x" : Option String) ≠ some "" := by
  exact ⟨rfl, by simp⟩

/-- C1: after `createRoutine` by user `u` with a non-empty list of `N` step
definitions under fresh identifiers, `getRoutineWithSteps` by the same
user returns exactly `N` steps, ordered ascending by order index, and the
persisted order indexes are exactly those of `stepValuesOf`: the
caller-supplied `orderIndex` when present, otherwise the 1-based position
in the supplied list. -/
theorem createRoutine_then_getRoutineWithSteps (u : String) (now : Nat)
    (rid res : String) (sid : Nat → String) (input : CreateRoutineInput)
    (ss : List RoutineStepInput) (db db' : DB)
    (hsteps : input.steps = some ss) (hne : ss ≠ [])
    (hfreshR : ∀ r ∈ db.sleepRoutines, r.id ≠ rid)
    (hfreshS : ∀ s ∈ db.sleepRoutineSteps, s.routineId ≠ rid)
    (hcreate : createRoutine (some u) now rid sid input db = .ok (res, db')) :
    ∃ out, getRoutineWithSteps (some u) rid db' = .ok out ∧
      out.steps.length = ss.length ∧
      List.Pairwise (fun a b : RoutineStep => a.orderIndex ≤ b.orderIndex)
        out.steps ∧
      out.steps.Perm (stepValuesOf rid sid now ss) ∧
      ∀ i (h1 : i < (stepValuesOf rid sid now ss).length)
          (h2 : i < ss.length),
        ((stepValuesOf rid sid now ss)[i]).orderIndex =
          match (ss[i]).orderIndex with
          | some o => o
          | none => (i : Int) + 1 := by
  simp only [createRoutine, requireUser, Except.ok.injEq,
    Prod.mk.injEq] at hcreate
  obtain ⟨-, hdb⟩ := hcreate
  rw [hsteps] at hdb
  have hisE : ss.isEmpty = false := by
    cases ss with
    | nil => exact absurd rfl hne
    | cons a l => rfl
  simp only [hisE, Bool.false_eq_true, if_false] at hdb
  subst hdb
  have hfilR : ((db.sleepRoutines ++
      [({ id := rid, userId := u, name := input.name,
          goalDescription := input.goalDescription,
          targetBedTimeLocal := input.targetBedTimeLocal,
          targetWakeTimeLocal := input.targetWakeTimeLocal,
          timeZone := input.timeZone, notes := input.notes,
          isActive := true, createdAt := now,
          updatedAt := now } : Routine)]).filter fun r =>
        r.id == rid && r.userId == u) =
      [{ id := rid, userId := u, name := input.name,
         goalDescription := input.goalDescription,
         targetBedTimeLocal := input.targetBedTimeLocal,
         targetWakeTimeLocal := input.targetWakeTimeLocal,
         timeZone := input.timeZone, notes := input.notes,
         isActive := true, createdAt := now, updatedAt := now }] := by
    rw [List.filter_append]
    have h1 : (db.sleepRoutines.filter fun r =>
        r.id == rid && r.userId == u) = [] := by
      rw [List.filter_eq_nil_iff]
      intro r hr
      simp [hfreshR r hr]
    rw [h1]
    simp
  have hfilS : ((db.sleepRoutineSteps ++
      stepValuesOf rid sid now ss).filter fun s => s.routineId == rid) =
      stepValuesOf rid sid now ss := by
    rw [List.filter_append]
    have h1 : (db.sleepRoutineSteps.filter fun s =>
        s.routineId == rid) = [] := by
      rw [List.filter_eq_nil_iff]
      intro s hs
      simp [hfreshS s hs]
    have h2 : ((stepValuesOf rid sid now ss).filter fun s =>
        s.routineId == rid) = stepValuesOf rid sid now ss := by
      rw [List.filter_eq_self]
      intro s hs
      simp [(stepValuesOf_mem rid sid now ss s hs).1]
    rw [h1, h2]
    simp
  refine ⟨⟨⟨rid, u, input.name, input.goalDescription,
      input.targetBedTimeLocal, input.targetWakeTimeLocal, input.timeZone,
      input.notes, true, now, now⟩,
      List.insertionSort stepOrd (stepValuesOf rid sid now ss)⟩, ?_,
    ?_, ?_, ?_, ?_⟩
  · simp only [getRoutineWithSteps, requireUser]
    rw [hfilR, hfilS]
    rfl
  · rw [List.length_insertionSort, stepValuesOf_length]
  · exact List.sorted_insertionSort stepOrd (stepValuesOf rid sid now ss)
  · exact List.perm_insertionSort stepOrd (stepValuesOf rid sid now ss)
  · intro i h1 h2
    rw [stepValuesOf_getElem rid sid now ss i h1 h2]
    cases ho : (ss[i]).orderIndex with
    | none => simp [ho]
    | some o => simp [ho]

/-! ## Concrete witnesses -/

/-- Witness for C1: two steps, the first with no order index (defaults to 1)
and the second with caller-supplied order index 5, on a fresh database. -/
theorem createRoutine_then_getRoutineWithSteps_witness :
    ∃ out, getRoutineWithSteps (some "u") "r"
        ⟨[⟨"r", "u", "W", none, none, none, none, none, true, 3, 3⟩],
         [⟨"s", "r", 1, "Dim", none, none, 3⟩,
          ⟨"s", "r", 5, "Read", none, none, 3⟩], []⟩ = .ok out ∧
      out.steps.length = ([⟨"Dim", none, none, none⟩,
        ⟨"Read", none, none, some 5⟩] : List RoutineStepInput).length ∧
      List.Pairwise (fun a b : RoutineStep => a.orderIndex ≤ b.orderIndex)
        out.steps ∧
      out.steps.Perm (stepValuesOf "r" (fun _ => "s") 3
        [⟨"Dim", none, none, none⟩, ⟨"Read", none, none, some 5⟩]) ∧
      ∀ i (h1 : i < (stepValuesOf "r" (fun _ => "s") 3
          [⟨"Dim", none, none, none⟩,
           ⟨"Read", none, none, some 5⟩]).length)
        (h2 : i < ([⟨"Dim", none, none, none⟩,
          ⟨"Read", none, none, some 5⟩] : List RoutineStepInput).length),
        ((stepValuesOf "r" (fun _ => "s") 3
          [⟨"Dim", none, none, none⟩,
           ⟨"Read", none, none, some 5⟩])[i]).orderIndex =
          match (([⟨"Dim", none, none, none⟩,
            ⟨"Read", none, none, some 5⟩] :
              List RoutineStepInput)[i]).orderIndex with
          | some o => o
          | none => (i : Int) + 1 :=
  createRoutine_then_getRoutineWithSteps "u" 3 "r" "r" (fun _ => "s")
    ⟨"W", none, none, none, none, none,
      some [⟨"Dim", none, none, none⟩, ⟨"Read", none, none, some 5⟩]⟩
    [⟨"Dim", none, none, none⟩, ⟨"Read", none, none, some 5⟩]
    ⟨[], [], []⟩
    ⟨[⟨"r", "u", "W", none, none, none, none, none, true, 3, 3⟩],
     [⟨"s", "r", 1, "Dim", none, none, 3⟩,
      ⟨"s", "r", 5, "Read", none, none, 3⟩], []⟩
    rfl (by decide) (by decide) (by decide) rfl

/-- Witness for C2: a non-empty routine reference against an empty
database. -/
theorem createSleepLog_forbidden_iff_witness :
    createSleepLog (some "u") 0 "L"
        ⟨some "r", none, none, none, none, none⟩ ⟨[], [], []⟩ =
          .error .forbidden ↔
      ¬∃ r ∈ (⟨[], [], []⟩ : DB).sleepRoutines,
        r.id = "r" ∧ r.userId = "u" :=
  (createSleepLog_forbidden_iff "u" 0 "L"
    ⟨some "r", none, none, none, none, none⟩ ⟨[], [], []⟩).1 "r" rfl
    (by decide)

/-- Fixture for the C3 witness: one routine with a prior note. -/
def c3db : DB :=
  ⟨[⟨"r", "u", "Old", none, none, none, none, some "n0", true, 1, 1⟩],
    [], []⟩

/-- Fixture for the C3 witness: the state after updating only the note. -/
def c3dbAfter : DB :=
  ⟨[⟨"r", "u", "Old", none, none, none, none, some "n1", true, 1, 5⟩],
    [], []⟩

/-- Fixture for the C3 witness: a patch carrying only the note field. -/
def c3input : UpdateRoutineInput :=
  ⟨"r", none, none, none, none, none, some "n1", none⟩

/-- Witness for C3: updating only `notes` at clock 5. -/
theorem updateRoutine_sparse_patch_witness :
    c3dbAfter.sleepRoutines.length = c3db.sleepRoutines.length ∧
    ∀ i (h1 : i < c3db.sleepRoutines.length)
        (h2 : i < c3dbAfter.sleepRoutines.length),
      (c3dbAfter.sleepRoutines[i]).userId =
        (c3db.sleepRoutines[i]).userId ∧
      (c3dbAfter.sleepRoutines[i]).createdAt =
        (c3db.sleepRoutines[i]).createdAt ∧
      (c3dbAfter.sleepRoutines[i]).isActive =
        (c3db.sleepRoutines[i]).isActive ∧
      (c3input.name = none →
        (c3dbAfter.sleepRoutines[i]).name = (c3db.sleepRoutines[i]).name) ∧
      (c3input.goalDescription = none →
        (c3dbAfter.sleepRoutines[i]).goalDescription =
          (c3db.sleepRoutines[i]).goalDescription) ∧
      (c3input.targetBedTimeLocal = none →
        (c3dbAfter.sleepRoutines[i]).targetBedTimeLocal =
          (c3db.sleepRoutines[i]).targetBedTimeLocal) ∧
      (c3input.targetWakeTimeLocal = none →
        (c3dbAfter.sleepRoutines[i]).targetWakeTimeLocal =
          (c3db.sleepRoutines[i]).targetWakeTimeLocal) ∧
      (c3input.timeZone = none →
        (c3dbAfter.sleepRoutines[i]).timeZone =
          (c3db.sleepRoutines[i]).timeZone) ∧
      (c3input.notes = none →
        (c3dbAfter.sleepRoutines[i]).notes =
          (c3db.sleepRoutines[i]).notes) ∧
      ((c3db.sleepRoutines[i]).id = c3input.id ∧
          (c3db.sleepRoutines[i]).userId = "u" →
        (c3dbAfter.sleepRoutines[i]).updatedAt = 5) ∧
      (¬((c3db.sleepRoutines[i]).id = c3input.id ∧
          (c3db.sleepRoutines[i]).userId = "u") →
        c3dbAfter.sleepRoutines[i] = c3db.sleepRoutines[i]) :=
  updateRoutine_sparse_patch "u" 5 (fun _ => "s") c3input c3db c3dbAfter rfl

/-- Fixture for the C4 witness: one routine with one step. -/
def c4db : DB :=
  ⟨[⟨"r", "u", "N", none, none, none, none, none, true, 1, 1⟩],
    [⟨"s1", "r", 1, "T", none, none, 1⟩], []⟩

/-- Fixture for the C4 witness: the state after updating with empty steps. -/
def c4dbEmpty : DB :=
  ⟨[⟨"r", "u", "N", none, none, none, none, none, true, 1, 5⟩], [], []⟩

/-- Fixture for the C4 witness: the state after updating without steps. -/
def c4dbOmit : DB :=
  ⟨[⟨"r", "u", "N", none, none, none, none, none, true, 1, 5⟩],
    [⟨"s1", "r", 1, "T", none, none, 1⟩], []⟩

/-- Witness for C4: empty step list versus omitted step list on a routine
with one prior step. -/
theorem updateRoutine_emptySteps_vs_omitted_witness :
    c4dbEmpty.sleepRoutineSteps =
      c4db.sleepRoutineSteps.filter (fun s => !(s.routineId == "r")) ∧
    c4dbOmit.sleepRoutineSteps = c4db.sleepRoutineSteps ∧
    ((∃ s ∈ c4db.sleepRoutineSteps, s.routineId = "r") →
      c4dbEmpty.sleepRoutineSteps ≠ c4dbOmit.sleepRoutineSteps) :=
  updateRoutine_emptySteps_vs_omitted "u" 5 (fun _ => "x") "r"
    ⟨"r", none, none, none, none, none, none, some []⟩
    ⟨"r", none, none, none, none, none, none, none⟩
    c4db c4dbEmpty c4dbOmit rfl rfl rfl rfl rfl

/-- Fixture for the C6 witness: one active routine owned by the caller. -/
def c6db : DB :=
  ⟨[⟨"r", "u", "N", none, none, none, none, none, true, 1, 1⟩], [], []⟩

/-- Witness for C6: archiving twice at clocks 5 and 7. -/
theorem archiveRoutine_idempotent_witness :
    ∃ db₁ db₂, archiveRoutine (some "u") 5 "r" c6db = .ok db₁ ∧
      archiveRoutine (some "u") 7 "r" db₁ = .ok db₂ ∧
      (∀ r ∈ db₁.sleepRoutines, r.id = "r" → r.userId = "u" →
        r.isActive = false ∧ r.updatedAt = 5) ∧
      (∀ r ∈ db₂.sleepRoutines, r.id = "r" → r.userId = "u" →
        r.isActive = false ∧ r.updatedAt = 7) :=
  (archiveRoutine_idempotent "u" 5 7 "r" c6db).1 (by decide)

/-- Fixture for the C7 witness: two active routines and one inactive, with
distinct update timestamps. -/
def c7db : DB :=
  ⟨[⟨"a", "u", "A", none, none, none, none, none, true, 1, 2⟩,
    ⟨"b", "u", "B", none, none, none, none, none, false, 1, 5⟩,
    ⟨"c", "u", "C", none, none, none, none, none, true, 1, 9⟩], [], []⟩

/-- Fixture for the C7 witness: the expected default listing. -/
def c7res : RoutineList :=
  ⟨[⟨"c", "u", "C", none, none, none, none, none, true, 1, 9⟩,
    ⟨"a", "u", "A", none, none, none, none, none, true, 1, 2⟩], 2⟩

/-- Witness for C7: the default listing over `c7db`. -/
theorem listMyRoutines_spec_witness :
    c7res.total = c7res.items.length ∧
    (∀ r ∈ c7res.items, r.userId = "u") ∧
    (false = false → ∀ r ∈ c7res.items, r.isActive = true) ∧
    c7res.items.Perm (c7db.sleepRoutines.filter fun r =>
      r.userId == "u" && (false || r.isActive)) ∧
    List.Pairwise (fun a b => b.updatedAt ≤ a.updatedAt) c7res.items :=
  listMyRoutines_spec "u" false c7db c7res rfl

/-- Fixture for the C8 witness: three logs of the caller, two sharing a
sleep date with different creation times. -/
def c8db : DB :=
  ⟨[], [], [⟨"1", "u", none, 5, none, none, none, none, 1⟩,
    ⟨"2", "u", none, 7, none, none, none, none, 1⟩,
    ⟨"3", "u", none, 7, none, none, none, none, 4⟩]⟩

/-- Fixture for the C8 witness: the expected first page of size two. -/
def c8res : SleepLogPage :=
  ⟨[⟨"3", "u", none, 7, none, none, none, none, 4⟩,
    ⟨"2", "u", none, 7, none, none, none, none, 1⟩], 1, 2, 2⟩

/-- Witness for C8: page one of size two over `c8db` with no filter. -/
theorem listSleepLogs_spec_witness :
    c8res.page = 1 ∧ c8res.pageSize = 2 ∧
    c8res.total = c8res.items.length ∧
    c8res.items.length ≤ 2 ∧
    (∀ l ∈ c8res.items, l.userId = "u") ∧
    (∀ s, (none : Option String) = some s → s ≠ "" →
      ∀ l ∈ c8res.items, l.routineId = some s) ∧
    List.Pairwise (fun a b => b.sleepDate < a.sleepDate ∨
      (a.sleepDate = b.sleepDate ∧ b.createdAt ≤ a.createdAt)) c8res.items ∧
    ∃ skipped rest,
      List.insertionSort logOrd
          (c8db.sleepLogs.filter (listSleepLogsPred "u" none)) =
        skipped ++ c8res.items ++ rest ∧
      skipped.length = min ((1 - 1) * 2)
        (c8db.sleepLogs.filter (listSleepLogsPred "u" none)).length :=
  listSleepLogs_spec "u" 1 2 none c8db c8res (by decide) rfl

/-- Fixture for the C9 witness: one log owned by the caller. -/
def c9db : DB :=
  ⟨[], [], [⟨"g", "u", some "x", 1, none, none, none, none, 1⟩]⟩

/-- Fixture for the C9 witness: a create input with an empty routine
reference. -/
def c9create : SleepLogInput :=
  ⟨some "", none, none, none, none, none⟩

/-- Fixture for the C9 witness: an update input with an empty routine
reference. -/
def c9update : UpdateSleepLogInput :=
  ⟨"g", some "", none, none, none, none, none⟩

/-- Witness for C9: empty-string routine reference on create and update. -/
theorem emptyString_routineRef_skipped_witness :
    (createSleepLog (some "u") 2 "L" c9create c9db = .ok ("L",
      { c9db with sleepLogs := c9db.sleepLogs ++
          [{ id := "L", userId := "u", routineId := some "",
             sleepDate := c9create.sleepDate.getD 2,
             bedTime := c9create.bedTime,
             wakeTime := c9create.wakeTime,
             sleepQualityScore := c9create.sleepQualityScore,
             notes := c9create.notes, createdAt := 2 }] })) ∧
    (((c9db.sleepLogs.filter fun l =>
        l.id == c9update.id && l.userId == "u") ≠ []) →
      updateSleepLog (some "u") c9update c9db = .ok
        { c9db with sleepLogs := c9db.sleepLogs.map fun l =>
            if l.id == c9update.id && l.userId == "u" then
              applySleepLogPatch c9update l
            else l }) ∧
    (∀ l : SleepLog, (applySleepLogPatch c9update l).routineId = some "") :=
  emptyString_routineRef_skipped "u" 2 "L" c9create c9update c9db rfl rfl

/-- Fixture for the C10 witness: the state created by a create call with one
step at clock 4. -/
def c10dbAfter : DB :=
  ⟨[⟨"r", "u", "W", none, none, none, none, none, true, 4, 4⟩],
    [⟨"s", "r", 1, "T", none, none, 4⟩], []⟩

/-- Witness for C10: a create call with one step at clock 4. -/
theorem createRoutine_single_timestamp_witness :
    ∃ r : Routine, c10dbAfter.sleepRoutines =
        (⟨[], [], []⟩ : DB).sleepRoutines ++ [r] ∧
      r.createdAt = r.updatedAt ∧
      ∃ newSteps : List RoutineStep,
        c10dbAfter.sleepRoutineSteps =
          (⟨[], [], []⟩ : DB).sleepRoutineSteps ++ newSteps ∧
        ∀ s ∈ newSteps, s.createdAt = r.createdAt :=
  createRoutine_single_timestamp "u" 4 "r" "r" (fun _ => "s")
    ⟨"W", none, none, none, none, none, some [⟨"T", none, none, none⟩]⟩
    ⟨[], [], []⟩ c10dbAfter rfl
